import Mathlib

/-!
# Verification of the Paperless NGX MCP server's resource-access core

Shallow embedding of the generic resource-access layer of the
`paperless-ngx-serverbased-mcp` repository:

* `src/services/paperless-api.ts` — config guard (`validateConfig`), query
  parameter construction and request preparation (`apiRequest`), error body
  parsing (`parseErrorResponse`), HTTP error classification
  (`formatHttpError`), transport-failure classification (the `catch` block of
  `apiRequest`), and the 204/empty-body success sentinel;
* `src/schemas/index.ts` — the saved-view filter compiler inside the
  `paperless_execute_saved_view` tool handler.

JavaScript runtime values that flow through this code are modelled by the
inductive type `JsVal` (JSON values); JavaScript truthiness, property access,
`Object.entries`, string coercion and `JSON.stringify` are modelled by
executable functions below.  `JSON.parse` is an external runtime facility and
is modelled as an explicit parameter `parse : String → Option JsVal`
(`none` = the parse throws).  Functions that can throw a `TypeError` at
runtime return `Option`/sum types with the thrown case explicit.
-/

namespace Paperless

/-- A JSON value, as produced by `JSON.parse` / `response.json()`.
Objects are insertion-ordered key/value lists with distinct keys (the shape
`JSON.parse` produces). -/
inductive JsVal where
  | null
  | bool (b : Bool)
  | num (n : Int)
  | str (s : String)
  | arr (elems : List JsVal)
  | obj (fields : List (String × JsVal))

/-- JavaScript truthiness of a value (`if (v)`).  Arrays and objects are
always truthy; `null`, `false`, `0` and `""` are falsy.  (`NaN` does not
arise: numbers here are integers decoded from JSON.) -/
def truthy : JsVal → Bool
  | .null => false
  | .bool b => b
  | .num n => n != 0
  | .str s => !s.isEmpty
  | .arr _ => true
  | .obj _ => true

/-- Truthiness of a possibly-`undefined` value (`none` = `undefined`). -/
def truthyOpt : Option JsVal → Bool
  | none => false
  | some v => truthy v

/-- JavaScript property access `v[key]` on a non-`null` base, for the
(non-numeric) property names this code reads: object fields by lookup, and
`length` on strings and arrays.  Properties of numbers and booleans are
`undefined` = `none`.  Access on a `null` base throws a `TypeError` in
JavaScript; the two places the embedded code can reach a `null` base model
the throw explicitly (the `isNull` guard in `extractDetail`, and the
optional-chaining guard in `optChainLength`), so this function is only
applied to non-`null` bases.  Numeric index properties of strings/arrays
are never read by the embedded code and are omitted. -/
def getProp : JsVal → String → Option JsVal
  | .obj fields, key => fields.lookup key
  | .str s, key => if key = "length" then some (.num s.length) else none
  | .arr xs, key => if key = "length" then some (.num xs.length) else none
  | _, _ => none

/-- Whether a value is JavaScript `null` (property access on it throws). -/
def isNull : JsVal → Bool
  | .null => true
  | _ => false

/-- `Object.entries(v)`: the own enumerable entries of a value — the fields
of an object, index/element pairs of an array, index/character pairs of a
string, and nothing for primitives. -/
def jsEntries : JsVal → List (String × JsVal)
  | .obj fields => fields
  | .arr xs => xs.enum.map fun p => (toString p.1, p.2)
  | .str s => s.data.enum.map fun p => (toString p.1, .str (String.singleton p.2))
  | _ => []

/-- Decimal digits of a natural number, fuel-indexed so that the definition
is structural (hence kernel-reducible).  `fuel = n + 1` always suffices. -/
def natDigitsAux : Nat → Nat → List Char
  | 0, _ => []
  | fuel + 1, n =>
    if n < 10 then [Nat.digitChar n]
    else natDigitsAux fuel (n / 10) ++ [Nat.digitChar (n % 10)]

/-- Decimal rendering of a natural number (the output of JavaScript
`String(n)` for a non-negative integer). -/
def natDecimal (n : Nat) : String := ⟨natDigitsAux (n + 1) n⟩

/-- Decimal rendering of an integer (JavaScript `String(n)` for an integral
number). -/
def intDecimal (i : Int) : String :=
  if i < 0 then "-" ++ natDecimal (-i).toNat else natDecimal i.toNat

/-- `Array.prototype.join(sep)` over already-rendered elements. -/
def joinSep (sep : String) : List String → String
  | [] => ""
  | [x] => x
  | x :: xs => x ++ sep ++ joinSep sep xs

mutual
/-- JavaScript string coercion `String(v)` (equivalently, interpolation of
`v` into a template literal): strings unchanged, numbers in decimal,
`null`/booleans as literals, arrays via `join(",")` (with `null` elements
rendered empty), plain objects as `"[object Object]"`. -/
def jsToString : JsVal → String
  | .null => "null"
  | .bool true => "true"
  | .bool false => "false"
  | .num n => intDecimal n
  | .str s => s
  | .arr xs => jsArrToString xs
  | .obj _ => "[object Object]"

/-- `Array.prototype.toString` = `join(",")`; a `null` element contributes
the empty string. -/
def jsArrToString : List JsVal → String
  | [] => ""
  | [.null] => ""
  | [v] => jsToString v
  | .null :: rest => "," ++ jsArrToString rest
  | v :: rest => jsToString v ++ "," ++ jsArrToString rest
end

/-- Element rendering used by `join`: `null` renders empty, anything else by
string coercion. -/
def jsElemString : JsVal → String
  | .null => ""
  | v => jsToString v

/-- `someList.join(", ")` as used for `non_field_errors` and field errors. -/
def joinCommaSpace (xs : List JsVal) : String :=
  joinSep ", " (xs.map jsElemString)

/-- JSON string escaping for `JSON.stringify`: quote, backslash, the five
short-form control characters (`\b \t \n \f \r`), and `\u00XX` (lower-case
hex) for every other control character; all other characters pass
through. -/
def escapeJsonChar (c : Char) : String :=
  if c = '"' then "\\\""
  else if c = '\\' then "\\\\"
  else if c = '\x08' then "\\b"
  else if c = '\x0c' then "\\f"
  else if c = '\n' then "\\n"
  else if c = '\r' then "\\r"
  else if c = '\t' then "\\t"
  else if c.toNat < 32 then
    "\\u00" ++ String.singleton (Nat.digitChar (c.toNat / 16))
      ++ String.singleton (Nat.digitChar (c.toNat % 16))
  else String.singleton c

/-- A JSON-quoted string literal. -/
def jsonQuote (s : String) : String :=
  "\"" ++ String.join (s.data.map escapeJsonChar) ++ "\""

mutual
/-- `JSON.stringify(v)` for JSON values (the fallback serialization of
`parseErrorResponse`). -/
def jsonStringify : JsVal → String
  | .null => "null"
  | .bool true => "true"
  | .bool false => "false"
  | .num n => intDecimal n
  | .str s => jsonQuote s
  | .arr xs => "[" ++ jsonStringifyArr xs ++ "]"
  | .obj fields => "\x7b" ++ jsonStringifyFields fields ++ "\x7d"

/-- Comma-separated serialization of array elements. -/
def jsonStringifyArr : List JsVal → String
  | [] => ""
  | [v] => jsonStringify v
  | v :: rest => jsonStringify v ++ "," ++ jsonStringifyArr rest

/-- Comma-separated serialization of object fields. -/
def jsonStringifyFields : List (String × JsVal) → String
  | [] => ""
  | [(k, v)] => jsonQuote k ++ ":" ++ jsonStringify v
  | (k, v) :: rest => jsonQuote k ++ ":" ++ jsonStringify v ++ "," ++ jsonStringifyFields rest
end

/-! ## Error type and configuration guard (`src/services/paperless-api.ts`) -/

/-- The `PaperlessApiError` class: a message, an optional HTTP status code
and an optional raw response body (`none` models `undefined`). -/
structure PaperlessApiError where
  message : String
  statusCode : Option Nat
  responseBody : Option JsVal

/-- The message thrown by `validateConfig` when `PAPERLESS_URL` is empty. -/
def paperlessUrlMissingMessage : String :=
  "PAPERLESS_URL environment variable is not set. Please configure it with your Paperless NGX server URL (e.g., https://paperless.example.com)"

/-- The message thrown by `validateConfig` when `PAPERLESS_TOKEN` is empty. -/
def paperlessTokenMissingMessage : String :=
  "PAPERLESS_TOKEN environment variable is not set. Please configure it with an API token from your Paperless NGX server. You can create one in Settings → API Tokens."

/-- `validateConfig()`: throws (`some` error) when a required setting is
missing.  The constants read from the environment are passed explicitly;
`!PAPERLESS_URL` on a string is truthiness, i.e. the empty-string test. -/
def validateConfig (paperlessUrl paperlessToken : String) : Option PaperlessApiError :=
  if paperlessUrl.isEmpty then some ⟨paperlessUrlMissingMessage, none, none⟩
  else if paperlessToken.isEmpty then some ⟨paperlessTokenMissingMessage, none, none⟩
  else none

/-- `getHeaders(contentType)`. -/
def getHeaders (paperlessToken contentType : String) : List (String × String) :=
  [("Authorization", "Token " ++ paperlessToken),
   ("Content-Type", contentType),
   ("Accept", "application/json")]

/-! ## Query-parameter construction in `apiRequest` -/

/-- A value of the `params` record of `apiRequest`:
`string | number | boolean | undefined` (plus `null`, which the runtime
check also handles). -/
inductive ParamValue where
  | str (s : String)
  | num (n : Int)
  | bool (b : Bool)
  | null
  | undef

/-- JavaScript `String(value)` on a parameter value. -/
def paramString : ParamValue → String
  | .str s => s
  | .num n => intDecimal n
  | .bool true => "true"
  | .bool false => "false"
  | .null => "null"
  | .undef => "undefined"

/-- The skip condition of the `apiRequest` parameter loop:
`value === undefined || value === null || value === ""` (negation of the
guard `value !== undefined && value !== null && value !== ""`). -/
def skipParam : ParamValue → Bool
  | .undef => true
  | .null => true
  | .str s => s.isEmpty
  | _ => false

/-- The query-parameter loop of `apiRequest`: for each entry, append
`(key, String(value))` to `url.searchParams` unless the value is
`undefined`, `null` or `""`. -/
def buildQueryParams (params : List (String × ParamValue)) : List (String × String) :=
  params.filterMap fun kv =>
    if skipParam kv.2 then none else some (kv.1, paramString kv.2)

/-- The outbound request assembled by `apiRequest` before the network call
(body, multipart payload and the 30-second timeout signal are elided: no
claim concerns them). -/
structure RequestDescriptor where
  method : String
  url : String
  query : List (String × String)
  headers : List (String × String)

/-- The pre-network phase of `apiRequest`: validate configuration, then
build the URL, query string and headers.  A configuration error aborts the
call before any request descriptor (hence any network call) exists. -/
def apiRequestPrepare (paperlessUrl paperlessToken method endpoint : String)
    (params : List (String × ParamValue)) : Except PaperlessApiError RequestDescriptor :=
  match validateConfig paperlessUrl paperlessToken with
  | some e => .error e
  | none =>
    .ok ⟨method, paperlessUrl ++ endpoint, buildQueryParams params,
         getHeaders paperlessToken "application/json"⟩

/-! ## Error-body parsing (`parseErrorResponse`) -/

/-- `error.non_field_errors?.length`: optional chaining yields `undefined`
when the property is `undefined` or `null`, otherwise reads `length`. -/
def optChainLength (v : Option JsVal) : Option JsVal :=
  match v with
  | none => none
  | some .null => none
  | some w => getProp w "length"

/-- The field-specific error entries of `parseErrorResponse`: the entries of
the body whose key is none of `detail`/`error`/`non_field_errors` and whose
value is an array or a string, rendered as `` `${key}: ${value}` `` (arrays
joined with `", "`). -/
def fieldErrorEntries (error : JsVal) : List String :=
  (jsEntries error).filterMap fun kv =>
    if kv.1 = "detail" ∨ kv.1 = "error" ∨ kv.1 = "non_field_errors" then none
    else
      match kv.2 with
      | .arr xs => some (kv.1 ++ ": " ++ joinCommaSpace xs)
      | .str s => some (kv.1 ++ ": " ++ s)
      | _ => none

/-- The tail of `parseErrorResponse` after the `detail` and `error` checks:
field-specific errors, else `JSON.stringify(body)`. -/
def detailFromFields (error : JsVal) : String :=
  let fieldErrors := fieldErrorEntries error
  if fieldErrors.length > 0 then joinSep "; " fieldErrors
  else jsonStringify error

/-- The `non_field_errors` step of `parseErrorResponse`.  When the `length`
read through optional chaining is truthy the code calls `.join(", ")`,
which is a `TypeError` (`none`) unless the value is an array. -/
def detailAfterError (error : JsVal) : Option String :=
  if truthyOpt (optChainLength (getProp error "non_field_errors")) then
    match getProp error "non_field_errors" with
    | some (.arr xs) => some (joinCommaSpace xs)
    | _ => none
  else some (detailFromFields error)

/-- The `error.error` step of `parseErrorResponse` (a truthy value is
returned, coerced to a string at its interpolation sites). -/
def detailAfterDetail (error : JsVal) : Option String :=
  match getProp error "error" with
  | some e => if truthy e then some (jsToString e) else detailAfterError error
  | none => detailAfterError error

/-- The shape-probing chain of `parseErrorResponse` applied to the
(possibly JSON-parsed) body: `detail`, then `error`, then
`non_field_errors`, then field-specific entries, then `JSON.stringify`.
When the probed value is `null` (reachable from a string body whose text is
`"null"`), the very first access `error.detail` throws a `TypeError`
(`none`). -/
def extractDetail (error : JsVal) : Option String :=
  if isNull error then none
  else
    match getProp error "detail" with
    | some d => if truthy d then some (jsToString d) else detailAfterDetail error
    | none => detailAfterDetail error

/-- `parseErrorResponse(body)`.  `parse` models `JSON.parse` (`none` = the
parse throws); the result `none` models a thrown `TypeError`.  A falsy body
yields `"Unknown error"`; a string body is parsed when possible and
returned as-is when not. -/
def parseErrorResponse (parse : String → Option JsVal) (body : Option JsVal) : Option String :=
  if !truthyOpt body then some "Unknown error"
  else
    match body with
    | some (.str s) =>
      (match parse s with
       | some parsed => extractDetail parsed
       | none => some s)
    | some v => extractDetail v
    | none => some "Unknown error"

/-- The value the shape-probing chain of `parseErrorResponse` actually runs
on for a given body: `none` when the chain is never reached (falsy body, or
a string body that fails to parse and is returned as-is), otherwise the
body itself or its parse result. -/
def effectiveBody (parse : String → Option JsVal) : Option JsVal → Option JsVal
  | none => none
  | some b =>
    if !truthy b then none
    else
      match b with
      | .str s => parse s
      | v => some v

/-- A truthy `detail` value, when present, renders as a non-empty string
(only arrays of empty renderings fail this). -/
def goodDetailShape (e : JsVal) : Bool :=
  match getProp e "detail" with
  | some d => !truthy d || !(jsToString d).isEmpty
  | none => true

/-- A truthy `error` value, when present, renders as a non-empty string. -/
def goodErrorShape (e : JsVal) : Bool :=
  match getProp e "error" with
  | some v => !truthy v || !(jsToString v).isEmpty
  | none => true

/-- A `non_field_errors` list, when present and non-empty, joins to a
non-empty string (only a singleton empty rendering fails this). -/
def goodNfeShape (e : JsVal) : Bool :=
  match getProp e "non_field_errors" with
  | some (.arr xs) => xs.isEmpty || !(joinCommaSpace xs).isEmpty
  | _ => true

/-- The probed value is free of the corner shapes that can make the
extracted detail empty. -/
def goodShapes (e : JsVal) : Bool :=
  goodDetailShape e && goodErrorShape e && goodNfeShape e

/-! ## HTTP error classification (`formatHttpError`) -/

/-- The fixed 401 message (independent of the response body). -/
def authFailedMessage : String :=
  "Authentication failed. Your PAPERLESS_TOKEN may be invalid or expired. Please verify the token in your Paperless NGX settings."

/-- The fixed 404 message (independent of the response body). -/
def notFoundMessage : String :=
  "Resource not found. Please verify the ID exists in Paperless NGX."

/-- `formatHttpError(status, body)`: extract a detail from the body, then
dispatch on the status.  `none` models the `TypeError` that
`parseErrorResponse` can throw (it is raised before the `switch` runs). -/
def formatHttpError (parse : String → Option JsVal) (status : Nat)
    (body : Option JsVal) : Option String :=
  match parseErrorResponse parse body with
  | none => none
  | some detail =>
    some (
      if status = 400 then
        "Bad request: " ++ detail ++ ". Please check your input parameters."
      else if status = 401 then authFailedMessage
      else if status = 403 then
        "Permission denied: " ++ detail ++ ". Your API token may lack the required permissions for this operation."
      else if status = 404 then notFoundMessage
      else if status = 409 then
        "Conflict: " ++ detail ++ ". The resource may have been modified by another user."
      else if status = 413 then
        "File too large. Please reduce the file size and try again."
      else if status = 429 then
        "Rate limit exceeded. Please wait a moment before making more requests."
      else if status = 500 ∨ status = 502 ∨ status = 503 ∨ status = 504 then
        "Paperless server error (HTTP " ++ natDecimal status ++ "). The server may be unavailable or overloaded. Please try again later."
      else
        "HTTP " ++ natDecimal status ++ " error: " ++ detail)

/-! ## Transport-failure classification (the `catch` block of `apiRequest`) -/

/-- `REQUEST_TIMEOUT_MS` from `src/constants.ts`. -/
def REQUEST_TIMEOUT_MS : Nat := 30000

/-- A JavaScript `Error` value as inspected by the `catch` block. -/
structure JsError where
  name : String
  message : String

/-- A value thrown inside the `try` of `apiRequest`: one of our own
`PaperlessApiError`s (re-thrown as-is), some other `Error`, or a non-`Error`
value. -/
inductive Thrown where
  | api (e : PaperlessApiError)
  | js (e : JsError)
  | nonError

/-- The timeout message (`REQUEST_TIMEOUT_MS / 1000` seconds). -/
def timeoutMessage (timeoutMs : Nat) : String :=
  "Request timed out after " ++ natDecimal (timeoutMs / 1000) ++ " seconds. The Paperless server may be slow or unreachable."

/-- The connection-failure message (embeds the configured base URL). -/
def unreachableMessage (paperlessUrl : String) : String :=
  "Could not connect to Paperless at " ++ paperlessUrl ++ ". Please verify the URL is correct and the server is running."

/-- The unknown-transport-failure message (wraps the underlying message). -/
def requestFailedMessage (m : String) : String :=
  "Request failed: " ++ m

/-- The message produced when a non-`Error` value is thrown. -/
def unexpectedErrorMessage : String :=
  "An unexpected error occurred while communicating with Paperless NGX."

/-- Whether the first list is a prefix of the second. -/
def charPrefix : List Char → List Char → Bool
  | [], _ => true
  | _ :: _, [] => false
  | c :: cs, d :: ds => c == d && charPrefix cs ds

/-- Whether the pattern occurs somewhere in the list. -/
def charContains (pat : List Char) : List Char → Bool
  | [] => pat.isEmpty
  | c :: rest => charPrefix pat (c :: rest) || charContains pat rest

/-- JavaScript `s.includes(pat)`. -/
def containsSub (s pat : String) : Bool :=
  charContains pat.data s.data

/-- The `catch` block of `apiRequest`: re-throw `PaperlessApiError`s;
classify thrown `Error`s by name (timeout) then by message substring
(unreachable) with a wrapping fallback; wrap non-`Error` values. -/
def handleCatch (timeoutMs : Nat) (paperlessUrl : String) : Thrown → PaperlessApiError
  | .api e => e
  | .js e =>
    if e.name == "TimeoutError" || e.name == "AbortError" then
      ⟨timeoutMessage timeoutMs, none, none⟩
    else if containsSub e.message "fetch" || containsSub e.message "network" then
      ⟨unreachableMessage paperlessUrl, none, none⟩
    else
      ⟨requestFailedMessage e.message, none, none⟩
  | .nonError => ⟨unexpectedErrorMessage, none, none⟩

/-! ## Response handling in `apiRequest` -/

/-- A successful `apiRequest` result: the `{ status: "success" }` sentinel
or a decoded JSON payload. -/
inductive ApiSuccess where
  | sentinel
  | json (v : JsVal)

/-- The outcome of the response-handling phase of `apiRequest`.
`internalThrow` is an `Error` raised inside the `try` block that is not a
`PaperlessApiError` (a JSON `SyntaxError` from `response.json()`, or the
`TypeError` from `parseErrorResponse`); the `catch` block subsequently wraps
it via `handleCatch`. -/
inductive ResponseOutcome where
  | success (v : ApiSuccess)
  | apiError (e : PaperlessApiError)
  | internalThrow

/-- An HTTP response as observed by `apiRequest`: status, headers and the
raw body text.  `response.json()` is `parse bodyText`;
`response.headers.get(name)` is a header lookup (`none` = absent). -/
structure HttpResponse where
  status : Nat
  headers : List (String × String)
  bodyText : String

/-- `response.headers.get(name)`. -/
def headerGet (r : HttpResponse) (name : String) : Option String :=
  r.headers.lookup name

/-- `response.ok`: status in the range 200-299. -/
def responseOk (r : HttpResponse) : Bool :=
  decide (200 ≤ r.status) && decide (r.status < 300)

/-- The response-handling phase of `apiRequest`: non-2xx responses become
classified `PaperlessApiError`s (the error body is `response.json()` when it
parses, else the body text); a 204 status or a `content-length: 0` header
yields the success sentinel; otherwise the body is JSON-decoded, a decode
failure being a `SyntaxError` raised inside the `try`. -/
def handleResponse (parse : String → Option JsVal) (r : HttpResponse) : ResponseOutcome :=
  if !responseOk r then
    let errorBody : Option JsVal :=
      match parse r.bodyText with
      | some v => some v
      | none => some (.str r.bodyText)
    match formatHttpError parse r.status errorBody with
    | some msg => .apiError ⟨msg, some r.status, errorBody⟩
    | none => .internalThrow
  else if r.status == 204 || headerGet r "content-length" == some "0" then
    .success .sentinel
  else
    match parse r.bodyText with
    | some v => .success (.json v)
    | none => .internalThrow

/-! ## Saved-view filter compiler
(`paperless_execute_saved_view` handler, `src/schemas/index.ts`) -/

/-- A value stored in the `apiParams` record of the handler
(`Record<string, string | number | undefined>`; only numbers and strings
are ever assigned). -/
inductive QVal where
  | num (n : Int)
  | str (s : String)

/-- Assignment `record[key] = value` on an insertion-ordered record:
overwrite in place when the key exists, append otherwise. -/
def setParam : List (String × QVal) → String → QVal → List (String × QVal)
  | [], key, v => [(key, v)]
  | kv :: rest, key, v =>
    if kv.1 = key then (kv.1, v) :: rest else kv :: setParam rest key v

/-- A `SavedViewFilterRule` from `src/types.ts`: a numeric rule type and a
`string | null` value. -/
structure FilterRule where
  rule_type : Int
  value : Option String

/-- A `PaperlessSavedView` from `src/types.ts`.  `sort_field` is
`string | null`; `filter_rules` is declared as an array but the handler
defends against its absence with `view.filter_rules || []`, so it is
modelled as optional. -/
structure SavedView where
  id : Int
  name : String
  show_on_dashboard : Bool
  show_in_sidebar : Bool
  sort_field : Option String
  sort_reverse : Bool
  filter_rules : Option (List FilterRule)
  owner : Option Int

/-- The rule-type dispatch table of the handler's `switch`: the six
recognized numeric rule types and their query-parameter names; every other
rule type is unrecognized (`none`). -/
def ruleParamKey : Int → Option String
  | 0 => some "title__icontains"
  | 3 => some "correspondent__id"
  | 4 => some "document_type__id"
  | 6 => some "tags__id__all"
  | 17 => some "created__date__gt"
  | 18 => some "created__date__lt"
  | _ => none

/-- One iteration of the handler's rule loop: skip a `null` value
(`continue`), apply a recognized rule type as a record assignment, and fall
through (no `default` case) on an unrecognized one. -/
def applyRule (m : List (String × QVal)) (r : FilterRule) : List (String × QVal) :=
  match r.value with
  | none => m
  | some v =>
    match ruleParamKey r.rule_type with
    | some key => setParam m key (.str v)
    | none => m

/-- Whether `if (view.sort_field)` takes the sort branch: the field is
neither `null` nor the empty string. -/
def sortFieldTruthy : Option String → Bool
  | none => false
  | some f => !f.isEmpty

/-- The query-parameter construction of `paperless_execute_saved_view`:
pagination parameters, then the ordering from the view's sort settings,
then the filter rules in stored order. -/
def compileSavedView (view : SavedView) (page pageSize : Int) : List (String × QVal) :=
  let apiParams : List (String × QVal) :=
    [("page", .num page), ("page_size", .num pageSize)]
  let withSort :=
    match view.sort_field with
    | some f =>
      if f.isEmpty then apiParams
      else setParam apiParams "ordering"
        (.str ((if view.sort_reverse then "-" else "") ++ f))
    | none => apiParams
  (view.filter_rules.getD []).foldl applyRule withSort

/-- The values contributed to a given query-parameter name by a rule list,
in stored order (skipping `null` values and unrecognized rule types). -/
def contribs (key : String) (rules : List FilterRule) : List String :=
  rules.filterMap fun r =>
    match r.value with
    | none => none
    | some v => if ruleParamKey r.rule_type = some key then some v else none

/-- The last element of a list of contributions (the one that survives
last-write-wins). -/
def lastWins : List String → Option String
  | [] => none
  | v :: rest =>
    match lastWins rest with
    | some w => some w
    | none => some v

/-! ## Record-assignment lemmas -/

/-- Unfolding of `List.lookup` on a cons, with a propositional `if`. -/
theorem lookup_cons {β : Type} (k : String) (kv : String × β) (l : List (String × β)) :
    List.lookup k (kv :: l) = if k = kv.1 then some kv.2 else List.lookup k l := by
  obtain ⟨a, b⟩ := kv
  by_cases h : k = a
  · simp [List.lookup, h]
  · have hb : (k == a) = false := beq_eq_false_iff_ne.mpr h
    simp [List.lookup, hb, h]

theorem lookup_setParam_self (m : List (String × QVal)) (key : String) (v : QVal) :
    List.lookup key (setParam m key v) = some v := by
  induction m with
  | nil => simp [setParam, lookup_cons]
  | cons kv rest ih =>
    by_cases h : kv.1 = key
    · simp [setParam, h, lookup_cons]
    · simp [setParam, h, lookup_cons, Ne.symm h, ih]

theorem lookup_setParam_ne (m : List (String × QVal)) (key k : String) (v : QVal)
    (h : k ≠ key) : List.lookup k (setParam m key v) = List.lookup k m := by
  induction m with
  | nil =>
    have hb : (k == key) = false := beq_eq_false_iff_ne.mpr h
    simp [setParam, List.lookup, hb]
  | cons kv rest ih =>
    by_cases hk : kv.1 = key
    · simp [setParam, hk, lookup_cons, h, ih]
    · by_cases hkk : k = kv.1
      · simp [setParam, hk, lookup_cons, hkk]
      · simp [setParam, hk, lookup_cons, hkk, ih]

theorem mem_keys_setParam (m : List (String × QVal)) (key k : String) (v : QVal) :
    k ∈ (setParam m key v).map Prod.fst ↔ k ∈ m.map Prod.fst ∨ k = key := by
  induction m with
  | nil => simp [setParam]
  | cons kv rest ih =>
    by_cases h : kv.1 = key
    · have hs : setParam (kv :: rest) key v = (kv.1, v) :: rest := by
        simp [setParam, h]
      rw [hs]
      subst h
      simp only [List.map_cons, List.mem_cons]
      tauto
    · have hs : setParam (kv :: rest) key v = kv :: setParam rest key v := by
        simp [setParam, h]
      rw [hs]
      simp only [List.map_cons, List.mem_cons, ih]
      tauto

theorem nodup_keys_setParam (m : List (String × QVal)) (key : String) (v : QVal)
    (h : (m.map Prod.fst).Nodup) : ((setParam m key v).map Prod.fst).Nodup := by
  induction m with
  | nil => simp [setParam]
  | cons kv rest ih =>
    by_cases hk : kv.1 = key
    · simpa [setParam, hk] using h
    · simp only [setParam, if_neg hk, List.map_cons, List.nodup_cons] at h ⊢
      refine ⟨fun hmem => ?_, ih h.2⟩
      rcases (mem_keys_setParam rest key kv.1 v).mp hmem with h' | h'
      · exact h.1 h'
      · exact hk h'

/-! ## C1 — per-rule behavior of the saved-view filter compiler -/

/-- C1: each iteration of the filter-rule loop maps a rule with a
recognized `rule_type` to exactly one query parameter (setting that
parameter to the rule's value and leaving every other parameter unchanged),
skips a rule whose `value` is `null`, and skips a rule whose `rule_type` is
outside the recognized set `{0, 3, 4, 6, 17, 18}`; the recognized table is
`0 ↦ title__icontains`, `3 ↦ correspondent__id`, `4 ↦ document_type__id`,
`6 ↦ tags__id__all`, `17 ↦ created__date__gt`, `18 ↦ created__date__lt`. -/
theorem rule_compiler_per_rule_action :
    (∀ (m : List (String × QVal)) (r : FilterRule),
      r.value = none → applyRule m r = m)
    ∧ (∀ (m : List (String × QVal)) (r : FilterRule),
        ruleParamKey r.rule_type = none → applyRule m r = m)
    ∧ (∀ (m : List (String × QVal)) (r : FilterRule) (v : String) (key : String),
        r.value = some v → ruleParamKey r.rule_type = some key →
          applyRule m r = setParam m key (.str v)
          ∧ List.lookup key (applyRule m r) = some (.str v)
          ∧ ∀ k, k ≠ key → List.lookup k (applyRule m r) = List.lookup k m)
    ∧ ruleParamKey 0 = some "title__icontains"
    ∧ ruleParamKey 3 = some "correspondent__id"
    ∧ ruleParamKey 4 = some "document_type__id"
    ∧ ruleParamKey 6 = some "tags__id__all"
    ∧ ruleParamKey 17 = some "created__date__gt"
    ∧ ruleParamKey 18 = some "created__date__lt"
    ∧ (∀ t : Int, t ≠ 0 → t ≠ 3 → t ≠ 4 → t ≠ 6 → t ≠ 17 → t ≠ 18 →
        ruleParamKey t = none) := by
  refine ⟨?_, ?_, ?_, rfl, rfl, rfl, rfl, rfl, rfl, ?_⟩
  · intro m r h
    simp [applyRule, h]
  · intro m r h
    cases hv : r.value with
    | none => simp [applyRule, hv]
    | some v => simp [applyRule, hv, h]
  · intro m r v key hv hk
    have he : applyRule m r = setParam m key (.str v) := by
      simp [applyRule, hv, hk]
    refine ⟨he, ?_, ?_⟩
    · rw [he]; exact lookup_setParam_self m key (.str v)
    · intro k hkk
      rw [he]; exact lookup_setParam_ne m key k (.str v) hkk
  · intro t h0 h3 h4 h6 h17 h18
    unfold ruleParamKey
    split <;> first | rfl | omega

/-- Witness for C1: the rule `{rule_type: 17, value: "2024-01-01"}`
contributes `created__date__gt: "2024-01-01"`, and the rule
`{rule_type: 999, value: "x"}` leaves the mapping unchanged. -/
theorem rule_compiler_per_rule_action_witness :
    List.lookup "created__date__gt"
        (applyRule [("page", .num 1)] ⟨17, some "2024-01-01"⟩)
      = some (.str "2024-01-01")
    ∧ applyRule [("page", QVal.num 1)] ⟨999, some "x"⟩ = [("page", QVal.num 1)] := by
  constructor
  · exact (rule_compiler_per_rule_action.2.2.1
      [("page", .num 1)] ⟨17, some "2024-01-01"⟩ "2024-01-01" "created__date__gt"
      rfl rfl).2.1
  · exact rule_compiler_per_rule_action.2.1
      [("page", QVal.num 1)] ⟨999, some "x"⟩ rfl

/-! ## Lemmas about the rule-loop fold -/

/-- The parameter a rule loop leaves under `key` is the last contribution to
`key`, falling back to the initial mapping when no rule contributes. -/
theorem lookup_foldl_applyRule (key : String) :
    ∀ (rules : List FilterRule) (m : List (String × QVal)),
      List.lookup key (rules.foldl applyRule m)
        = match lastWins (contribs key rules) with
          | some v => some (QVal.str v)
          | none => List.lookup key m := by
  intro rules
  induction rules with
  | nil => intro m; simp [contribs, lastWins]
  | cons r rest ih =>
    intro m
    rw [List.foldl_cons]
    cases hv : r.value with
    | none =>
      have hc : contribs key (r :: rest) = contribs key rest := by
        simp [contribs, List.filterMap_cons, hv]
      have ha : applyRule m r = m := by simp [applyRule, hv]
      rw [hc, ha, ih]
    | some v =>
      cases hk : ruleParamKey r.rule_type with
      | none =>
        have hc : contribs key (r :: rest) = contribs key rest := by
          simp [contribs, List.filterMap_cons, hv, hk]
        have ha : applyRule m r = m := by simp [applyRule, hv, hk]
        rw [hc, ha, ih]
      | some k =>
        have ha : applyRule m r = setParam m k (.str v) := by
          simp [applyRule, hv, hk]
        by_cases hkey : k = key
        · subst hkey
          have hc : contribs k (r :: rest) = v :: contribs k rest := by
            simp [contribs, List.filterMap_cons, hv, hk]
          rw [hc, ha, ih]
          cases hlw : lastWins (contribs k rest) with
          | some w => simp [lastWins, hlw]
          | none => simp [lastWins, hlw, lookup_setParam_self]
        · have hc : contribs key (r :: rest) = contribs key rest := by
            simp [contribs, List.filterMap_cons, hv, hk, hkey]
          rw [hc, ha, ih, lookup_setParam_ne m k key (.str v) (Ne.symm hkey)]

/-- One rule-loop iteration preserves uniqueness of the parameter names. -/
theorem nodup_keys_applyRule (m : List (String × QVal)) (r : FilterRule)
    (h : (m.map Prod.fst).Nodup) : ((applyRule m r).map Prod.fst).Nodup := by
  cases hv : r.value with
  | none => simpa [applyRule, hv] using h
  | some v =>
    cases hk : ruleParamKey r.rule_type with
    | none => simpa [applyRule, hv, hk] using h
    | some k =>
      rw [show applyRule m r = setParam m k (.str v) from by simp [applyRule, hv, hk]]
      exact nodup_keys_setParam m k (.str v) h

/-- The whole rule loop preserves uniqueness of the parameter names. -/
theorem nodup_keys_foldl_applyRule :
    ∀ (rules : List FilterRule) (m : List (String × QVal)),
      (m.map Prod.fst).Nodup → ((rules.foldl applyRule m).map Prod.fst).Nodup := by
  intro rules
  induction rules with
  | nil => intro m h; simpa using h
  | cons r rest ih =>
    intro m h
    rw [List.foldl_cons]
    exact ih _ (nodup_keys_applyRule m r h)

/-- No rule type compiles to the `ordering` parameter. -/
theorem ruleParamKey_ne_ordering (t : Int) : ruleParamKey t ≠ some "ordering" := by
  unfold ruleParamKey
  split <;> simp

/-- No rule contributes to the `ordering` parameter. -/
theorem contribs_ordering_nil (rules : List FilterRule) :
    contribs "ordering" rules = [] := by
  induction rules with
  | nil => simp [contribs]
  | cons r rest ih =>
    cases hv : r.value with
    | none => simpa [contribs, List.filterMap_cons, hv] using ih
    | some v =>
      simpa [contribs, List.filterMap_cons, hv, ruleParamKey_ne_ordering r.rule_type]
        using ih

/-! ## C7 — sort compilation of a saved view -/

/-- C7: a saved view with `sort_field = "created"`, `sort_reverse = true`
and an empty rule list compiles to exactly the pagination parameters plus
`ordering = "-created"` and nothing else (shown both for arbitrary
pagination values and at the schema defaults `page = 1`,
`page_size = 25`); in general the `ordering` parameter equals
`(sort_reverse ? "-" : "") + sort_field` whenever `sort_field` is a
non-empty string, and is absent when `sort_field` is `null`. -/
theorem saved_view_sort_compilation :
    (∀ (view : SavedView) (page pageSize : Int),
       view.sort_field = some "created" → view.sort_reverse = true →
       view.filter_rules = some [] →
       compileSavedView view page pageSize
         = [("page", .num page), ("page_size", .num pageSize),
            ("ordering", .str "-created")])
    ∧ compileSavedView ⟨1, "Inbox", false, false, some "created", true, some [], none⟩ 1 25
        = [("page", .num 1), ("page_size", .num 25), ("ordering", .str "-created")]
    ∧ (∀ (view : SavedView) (page pageSize : Int) (f : String),
        view.sort_field = some f → f ≠ "" →
        List.lookup "ordering" (compileSavedView view page pageSize)
          = some (.str ((if view.sort_reverse then "-" else "") ++ f)))
    ∧ (∀ (view : SavedView) (page pageSize : Int),
        view.sort_field = none →
        List.lookup "ordering" (compileSavedView view page pageSize) = none) := by
  have hord : ∀ (rules : List FilterRule) (m : List (String × QVal)),
      List.lookup "ordering" (rules.foldl applyRule m) = List.lookup "ordering" m := by
    intro rules m
    rw [lookup_foldl_applyRule "ordering" rules m, contribs_ordering_nil rules]
    rfl
  refine ⟨?_, by rfl, ?_, ?_⟩
  · intro view page pageSize hsf hsr hfr
    obtain ⟨i, n, d, s, sf, sr, fr, ow⟩ := view
    simp only at hsf hsr hfr
    subst hsf; subst hsr; subst hfr
    rfl
  · intro view page pageSize f hsf hf
    have hie : f.isEmpty = false := by
      cases hfe : f.isEmpty
      · rfl
      · exact absurd ((String.isEmpty_iff f).mp hfe) hf
    simp only [compileSavedView, hsf, hie, Bool.false_eq_true, if_false]
    rw [hord]
    exact lookup_setParam_self _ "ordering" _
  · intro view page pageSize hsf
    simp only [compileSavedView, hsf]
    rw [hord]
    simp [lookup_cons]

/-- Witness for C7: a view sorted by `created` descending with no rules and
non-default pagination has `ordering = "-created"`. -/
theorem saved_view_sort_compilation_witness :
    List.lookup "ordering"
        (compileSavedView ⟨7, "Recent", true, false, some "created", true, some [], none⟩ 2 50)
      = some (.str "-created") := by
  have h := saved_view_sort_compilation.2.2.1
    ⟨7, "Recent", true, false, some "created", true, some [], none⟩ 2 50 "created" rfl
    (by decide)
  simpa using h

/-! ## C8 — last-write-wins for duplicate parameter names -/

/-- C8: for every saved view, the compiled value of a query-parameter name
that at least one recognized rule contributes to is the value of the last
such rule in stored order (later rules overwrite earlier ones), and the
compiled mapping's keys are unique. -/
theorem saved_view_last_write_wins :
    (∀ (view : SavedView) (page pageSize : Int) (key v : String),
       lastWins (contribs key (view.filter_rules.getD [])) = some v →
       List.lookup key (compileSavedView view page pageSize) = some (.str v))
    ∧ (∀ (view : SavedView) (page pageSize : Int),
        ((compileSavedView view page pageSize).map Prod.fst).Nodup) := by
  constructor
  · intro view page pageSize key v h
    unfold compileSavedView
    rw [lookup_foldl_applyRule key (view.filter_rules.getD []) _, h]
  · intro view page pageSize
    unfold compileSavedView
    apply nodup_keys_foldl_applyRule
    cases hsf : view.sort_field with
    | none => simp
    | some f =>
      by_cases hie : f.isEmpty
      · simp [hie]
      · simp only [hie, Bool.false_eq_true, if_false]
        apply nodup_keys_setParam
        simp

/-- Witness for C8: two `title contains` rules (`rule_type = 0`) with values
`"a"` then `"b"` compile to `title__icontains = "b"`. -/
theorem saved_view_last_write_wins_witness :
    List.lookup "title__icontains"
        (compileSavedView
          ⟨3, "Dup", false, false, none, false, some [⟨0, some "a"⟩, ⟨0, some "b"⟩], none⟩ 1 25)
      = some (.str "b") := by
  exact saved_view_last_write_wins.1
    ⟨3, "Dup", false, false, none, false, some [⟨0, some "a"⟩, ⟨0, some "b"⟩], none⟩ 1 25
    "title__icontains" "b" (by decide)

/-! ## C2 — omission of empty query-parameter values -/

/-- A string differing from `""` has `isEmpty = false`. -/
theorem isEmpty_false_of_ne (s : String) (h : s ≠ "") : s.isEmpty = false := by
  cases hfe : s.isEmpty
  · rfl
  · exact absurd ((String.isEmpty_iff s).mp hfe) h

/-- In a list whose keys are unique, a key determines its value. -/
theorem eq_of_mem_nodup_keys {β : Type} :
    ∀ (l : List (String × β)) (k : String) (v v' : β),
      (l.map Prod.fst).Nodup → (k, v) ∈ l → (k, v') ∈ l → v = v' := by
  intro l
  induction l with
  | nil => intro k v v' _ h; cases h
  | cons kv rest ih =>
    obtain ⟨a, b⟩ := kv
    intro k v v' hnd h h'
    simp only [List.map_cons, List.nodup_cons] at hnd
    rcases List.mem_cons.mp h with h1 | h1 <;> rcases List.mem_cons.mp h' with h2 | h2
    · rw [← h2] at h1
      exact congrArg Prod.snd h1
    · exfalso
      apply hnd.1
      have hm : (k, v').1 ∈ rest.map Prod.fst := List.mem_map_of_mem Prod.fst h2
      have hk : k = a := congrArg Prod.fst h1
      rwa [← hk]
    · exfalso
      apply hnd.1
      have hm : (k, v).1 ∈ rest.map Prod.fst := List.mem_map_of_mem Prod.fst h1
      have hk : k = a := congrArg Prod.fst h2
      rwa [← hk]
    · exact ih k v v' hnd.2 h1 h2

/-- C2: in the URL built by `apiRequest`, a parameter whose value is
`undefined`, `null` or `""` is absent from the query string, and a
parameter with any other value is present with its stringified value
(assuming the parameter record's keys are unique, as they are for a
JavaScript `Record`). -/
theorem query_param_empty_omission
    (paperlessUrl paperlessToken method endpoint : String)
    (params : List (String × ParamValue)) (desc : RequestDescriptor)
    (hprep : apiRequestPrepare paperlessUrl paperlessToken method endpoint params = .ok desc)
    (hnd : (params.map Prod.fst).Nodup) :
    ∀ (k : String) (v : ParamValue), (k, v) ∈ params →
      ((v = .undef ∨ v = .null ∨ v = .str "") → ∀ s, (k, s) ∉ desc.query)
      ∧ (v ≠ .undef → v ≠ .null → v ≠ .str "" → (k, paramString v) ∈ desc.query) := by
  have hq : desc.query = buildQueryParams params := by
    unfold apiRequestPrepare at hprep
    cases hv : validateConfig paperlessUrl paperlessToken with
    | some e => rw [hv] at hprep; exact absurd hprep (by simp)
    | none => rw [hv] at hprep; cases hprep; rfl
  intro k v hmem
  constructor
  · intro hv s hc
    rw [hq] at hc
    obtain ⟨⟨k', v'⟩, hmem', hf⟩ := List.mem_filterMap.mp hc
    by_cases hsk : skipParam v'
    · simp [buildQueryParams, hsk] at hf
    · simp only [hsk, Bool.false_eq_true, if_false, Option.some.injEq, Prod.mk.injEq] at hf
      obtain ⟨hk', _⟩ := hf
      subst hk'
      have hvv : v' = v := eq_of_mem_nodup_keys params k' v' v hnd hmem' hmem
      subst hvv
      rcases hv with h | h | h <;> subst h <;> exact hsk (by decide)
  · intro h1 h2 h3
    rw [hq]
    apply List.mem_filterMap.mpr
    refine ⟨(k, v), hmem, ?_⟩
    have hsk : skipParam v = false := by
      cases v with
      | str s => exact isEmpty_false_of_ne s (fun he => h3 (by rw [he]))
      | num n => rfl
      | bool b => rfl
      | null => exact absurd rfl h2
      | undef => exact absurd rfl h1
    simp [hsk]

/-- Witness for C2: with parameters `query = ""` (skipped) and `page = 1`
(kept), the built query string omits `query` and contains `page=1`. -/
theorem query_param_empty_omission_witness :
    ("query", "") ∉ buildQueryParams [("query", ParamValue.str ""), ("page", ParamValue.num 1)]
    ∧ ("page", "1") ∈ buildQueryParams [("query", ParamValue.str ""), ("page", ParamValue.num 1)] := by
  have h := query_param_empty_omission "http://x" "t" "GET" "/api/documents/"
    [("query", .str ""), ("page", .num 1)]
    ⟨"GET", "http://x" ++ "/api/documents/",
      buildQueryParams [("query", .str ""), ("page", .num 1)],
      getHeaders "t" "application/json"⟩ rfl (by decide)
  constructor
  · exact (h "query" (.str "") (by simp)).1 (by simp) ""
  · exact (h "page" (.num 1) (by simp)).2 (by simp) (by simp) (by simp)

/-! ## C9 — the configuration guard -/

/-- C9: an empty base address or an empty credential makes the config guard
raise before a request descriptor is ever built (`apiRequestPrepare` yields
the error, so no network call happens), the raised message names exactly
the missing setting (`PAPERLESS_URL` resp. `PAPERLESS_TOKEN`, never the
other one) together with guidance on where to obtain it, and the guard
raises nothing when both settings are present. -/
theorem config_guard_identifies_missing_setting :
    (∀ paperlessToken : String,
       validateConfig "" paperlessToken = some ⟨paperlessUrlMissingMessage, none, none⟩
       ∧ containsSub paperlessUrlMissingMessage "PAPERLESS_URL" = true
       ∧ containsSub paperlessUrlMissingMessage "Please configure it with your Paperless NGX server URL" = true
       ∧ containsSub paperlessUrlMissingMessage "PAPERLESS_TOKEN" = false
       ∧ ∀ (method endpoint : String) (params : List (String × ParamValue)),
           apiRequestPrepare "" paperlessToken method endpoint params
             = .error ⟨paperlessUrlMissingMessage, none, none⟩)
    ∧ (∀ paperlessUrl : String, paperlessUrl ≠ "" →
        validateConfig paperlessUrl "" = some ⟨paperlessTokenMissingMessage, none, none⟩
        ∧ containsSub paperlessTokenMissingMessage "PAPERLESS_TOKEN" = true
        ∧ containsSub paperlessTokenMissingMessage "You can create one in Settings" = true
        ∧ containsSub paperlessTokenMissingMessage "PAPERLESS_URL" = false
        ∧ ∀ (method endpoint : String) (params : List (String × ParamValue)),
            apiRequestPrepare paperlessUrl "" method endpoint params
              = .error ⟨paperlessTokenMissingMessage, none, none⟩)
    ∧ (∀ paperlessUrl paperlessToken : String, paperlessUrl ≠ "" → paperlessToken ≠ "" →
        validateConfig paperlessUrl paperlessToken = none
        ∧ ∀ (method endpoint : String) (params : List (String × ParamValue)),
            apiRequestPrepare paperlessUrl paperlessToken method endpoint params
              = .ok ⟨method, paperlessUrl ++ endpoint, buildQueryParams params,
                     getHeaders paperlessToken "application/json"⟩) := by
  have he : ("" : String).isEmpty = true := rfl
  refine ⟨?_, ?_, ?_⟩
  · intro paperlessToken
    refine ⟨by simp [validateConfig, he], by decide, by decide, by decide, ?_⟩
    intro method endpoint params
    simp [apiRequestPrepare, validateConfig, he]
  · intro paperlessUrl hu
    have hie := isEmpty_false_of_ne paperlessUrl hu
    refine ⟨by simp [validateConfig, hie, he], by decide, by decide, by decide, ?_⟩
    intro method endpoint params
    simp [apiRequestPrepare, validateConfig, hie, he]
  · intro paperlessUrl paperlessToken hu ht
    have hie := isEmpty_false_of_ne paperlessUrl hu
    have hte := isEmpty_false_of_ne paperlessToken ht
    refine ⟨by simp [validateConfig, hie, hte], ?_⟩
    intro method endpoint params
    simp [apiRequestPrepare, validateConfig, hie, hte]

/-- Witness for C9: with base address `"https://p.example"` and an empty
token, the guard raises the token error; with both settings present it
raises nothing. -/
theorem config_guard_identifies_missing_setting_witness :
    validateConfig "https://p.example" "" = some ⟨paperlessTokenMissingMessage, none, none⟩
    ∧ validateConfig "https://p.example" "tok" = none := by
  constructor
  · exact (config_guard_identifies_missing_setting.2.1 "https://p.example" (by decide)).1
  · exact (config_guard_identifies_missing_setting.2.2 "https://p.example" "tok"
      (by decide) (by decide)).1

/-! ## C3 — classification of transport-level failures -/

/-- Two string concatenations whose left parts differ at character index
`i` are different strings. -/
theorem append_ne_of_char_ne (p₁ s₁ p₂ s₂ : String) (i : Nat) (c₁ c₂ : Char)
    (h₁ : p₁.data[i]? = some c₁) (h₂ : p₂.data[i]? = some c₂) (hne : c₁ ≠ c₂) :
    p₁ ++ s₁ ≠ p₂ ++ s₂ := by
  intro h
  have hi₁ : i < p₁.data.length := by
    by_contra hlt
    push_neg at hlt
    rw [List.getElem?_eq_none hlt] at h₁
    cases h₁
  have hi₂ : i < p₂.data.length := by
    by_contra hlt
    push_neg at hlt
    rw [List.getElem?_eq_none hlt] at h₂
    cases h₂
  have hd : (p₁.data ++ s₁.data) = (p₂.data ++ s₂.data) := by
    have := congrArg String.data h
    rwa [String.data_append, String.data_append] at this
  have e₁ : (p₁.data ++ s₁.data)[i]? = some c₁ := by
    rw [List.getElem?_append_left hi₁]; exact h₁
  have e₂ : (p₂.data ++ s₂.data)[i]? = some c₂ := by
    rw [List.getElem?_append_left hi₂]; exact h₂
  rw [hd, e₂] at e₁
  exact hne (Option.some.injEq .. ▸ e₁).symm

/-- C3: a thrown `Error` that is not a `PaperlessApiError` is classified by
the `catch` block of `apiRequest` as exactly one of the three transport
failures — timeout (name `TimeoutError`/`AbortError`), unreachable (message
mentioning `fetch` or `network`), or unknown transport failure (wrapping
the underlying message) — all three carry no status code (and no response
body), and the three messages are pairwise distinct. -/
theorem transport_failure_classification
    (timeoutMs : Nat) (paperlessUrl : String) (e : JsError) :
    ((handleCatch timeoutMs paperlessUrl (.js e)).statusCode = none
      ∧ (handleCatch timeoutMs paperlessUrl (.js e)).responseBody = none)
    ∧ (((e.name == "TimeoutError" || e.name == "AbortError") = true
          ∧ (handleCatch timeoutMs paperlessUrl (.js e)).message = timeoutMessage timeoutMs)
       ∨ ((e.name == "TimeoutError" || e.name == "AbortError") = false
          ∧ (containsSub e.message "fetch" || containsSub e.message "network") = true
          ∧ (handleCatch timeoutMs paperlessUrl (.js e)).message = unreachableMessage paperlessUrl)
       ∨ ((e.name == "TimeoutError" || e.name == "AbortError") = false
          ∧ (containsSub e.message "fetch" || containsSub e.message "network") = false
          ∧ (handleCatch timeoutMs paperlessUrl (.js e)).message = requestFailedMessage e.message))
    ∧ timeoutMessage timeoutMs ≠ unreachableMessage paperlessUrl
    ∧ (∀ m : String, requestFailedMessage m ≠ timeoutMessage timeoutMs)
    ∧ (∀ m : String, requestFailedMessage m ≠ unreachableMessage paperlessUrl) := by
  have htm : timeoutMessage timeoutMs
      = "Request timed out after "
        ++ (natDecimal (timeoutMs / 1000)
            ++ " seconds. The Paperless server may be slow or unreachable.") := by
    unfold timeoutMessage
    rw [String.append_assoc]
  have hum : unreachableMessage paperlessUrl
      = "Could not connect to Paperless at "
        ++ (paperlessUrl ++ ". Please verify the URL is correct and the server is running.") := by
    unfold unreachableMessage
    rw [String.append_assoc]
  refine ⟨?_, ?_, ?_, ?_, ?_⟩
  · cases hn : (e.name == "TimeoutError" || e.name == "AbortError") <;>
      cases hm : (containsSub e.message "fetch" || containsSub e.message "network") <;>
      simp [handleCatch, hn, hm]
  · cases hn : (e.name == "TimeoutError" || e.name == "AbortError") <;>
      cases hm : (containsSub e.message "fetch" || containsSub e.message "network")
    · exact Or.inr (Or.inr ⟨rfl, rfl, by simp [handleCatch, hn, hm]⟩)
    · exact Or.inr (Or.inl ⟨rfl, rfl, by simp [handleCatch, hn, hm]⟩)
    · exact Or.inl ⟨rfl, by simp [handleCatch, hn]⟩
    · exact Or.inl ⟨rfl, by simp [handleCatch, hn]⟩
  · rw [htm, hum]
    exact append_ne_of_char_ne _ _ _ _ 0 'R' 'C' (by decide) (by decide) (by decide)
  · intro m
    rw [htm]
    exact append_ne_of_char_ne "Request failed: " m _ _ 8 'f' 't'
      (by decide) (by decide) (by decide)
  · intro m
    rw [hum]
    exact append_ne_of_char_ne "Request failed: " m _ _ 0 'R' 'C'
      (by decide) (by decide) (by decide)

/-! ## C6 — the success sentinel for empty responses -/

/-- Counterexample for C6: a 200 response with a zero-length body but no
`content-length` header is not given the sentinel — `response.json()` is
attempted on the empty body and its `SyntaxError` (here, the parse
returning `none`) escapes the `try` block as a wrapped error, i.e. a decode
failure. -/
theorem sentinel_zero_length_counterexample :
    responseOk ⟨200, [], ""⟩ = true
    ∧ (HttpResponse.mk 200 [] "").bodyText.length = 0
    ∧ handleResponse (fun _ => none) ⟨200, [], ""⟩ = .internalThrow
    ∧ handleResponse (fun _ => none) ⟨200, [], ""⟩ ≠ .success .sentinel := by
  refine ⟨by decide, by decide, by rfl, ?_⟩
  intro h
  rw [show handleResponse (fun _ => none) ⟨200, [], ""⟩ = .internalThrow from rfl] at h
  exact ResponseOutcome.noConfusion h

/-- C6 (amended): a successful response with status 204, or with a
`content-length: 0` header, yields the success sentinel and never a decode
error.  (The original claim spoke of every zero-length body; the code keys
on the `content-length` header, so a zero-length body delivered without
that header is JSON-decoded and fails, see the counterexample.) -/
theorem sentinel_on_204_or_content_length_zero
    (parse : String → Option JsVal) (r : HttpResponse)
    (hok : responseOk r = true)
    (hcond : r.status = 204 ∨ headerGet r "content-length" = some "0") :
    handleResponse parse r = .success .sentinel := by
  unfold handleResponse
  rw [hok]
  rcases hcond with h | h
  · simp [h]
  · simp [h]

/-- Witness for C6 (amended): a bare 204 response yields the sentinel. -/
theorem sentinel_on_204_or_content_length_zero_witness :
    responseOk ⟨204, [], ""⟩ = true
    ∧ handleResponse (fun _ => none) ⟨204, [], ""⟩ = .success .sentinel :=
  ⟨by decide,
   sentinel_on_204_or_content_length_zero (fun _ => none) ⟨204, [], ""⟩
     (by decide) (Or.inl rfl)⟩

/-! ## C5 — fixed 401/404 classifier messages -/

/-- Counterexample for C5: the classifier's result for status 401 is *not*
the same for every pair of bodies — on a body whose `non_field_errors` is a
non-empty string, `parseErrorResponse` calls `.join` on a non-array and
throws a `TypeError` (`none`) instead of producing the fixed message. -/
theorem classifier_message_varies_counterexample :
    formatHttpError (fun _ => none) 401 (some (.obj [("non_field_errors", .str "x")])) = none
    ∧ formatHttpError (fun _ => none) 401 (some (.obj [("detail", .str "y")]))
        = some authFailedMessage
    ∧ formatHttpError (fun _ => none) 401 (some (.obj [("non_field_errors", .str "x")]))
        ≠ formatHttpError (fun _ => none) 401 (some (.obj [("detail", .str "y")])) := by
  refine ⟨by rfl, by rfl, ?_⟩
  intro h
  rw [show formatHttpError (fun _ => none) 401 (some (.obj [("non_field_errors", .str "x")]))
        = none from rfl,
      show formatHttpError (fun _ => none) 401 (some (.obj [("detail", .str "y")]))
        = some authFailedMessage from rfl] at h
  cases h

/-- C5 (amended): whenever the classifier returns a message at all (its
detail extraction does not throw), the 401 message is one fixed string —
so it never varies with, and in particular never embeds, the detail
extracted from the body — and the 404 message is likewise one fixed
string. -/
theorem classifier_fixed_401_404_messages (parse : String → Option JsVal)
    (body : Option JsVal) :
    ((∃ m, formatHttpError parse 401 body = some m) →
       formatHttpError parse 401 body = some authFailedMessage)
    ∧ ((∃ m, formatHttpError parse 404 body = some m) →
       formatHttpError parse 404 body = some notFoundMessage) := by
  cases hp : parseErrorResponse parse body with
  | none =>
    constructor <;> (rintro ⟨m, hm⟩; simp [formatHttpError, hp] at hm)
  | some d =>
    constructor <;> (intro _; simp [formatHttpError, hp])

/-- Witness for C5 (amended): a body carrying a `detail` does not alter the
fixed 401/404 messages. -/
theorem classifier_fixed_401_404_messages_witness :
    formatHttpError (fun _ => none) 401 (some (.obj [("detail", .str "secret")]))
      = some authFailedMessage
    ∧ formatHttpError (fun _ => none) 404 (some (.obj [("detail", .str "secret")]))
      = some notFoundMessage :=
  ⟨(classifier_fixed_401_404_messages (fun _ => none)
      (some (.obj [("detail", .str "secret")]))).1 ⟨authFailedMessage, by rfl⟩,
   (classifier_fixed_401_404_messages (fun _ => none)
      (some (.obj [("detail", .str "secret")]))).2 ⟨notFoundMessage, by rfl⟩⟩

/-! ## C4 — the priority order of error-detail extraction -/

/-- A successful property read implies the base was not `null`. -/
theorem isNull_false_of_getProp (e : JsVal) (k : String) (v : JsVal)
    (h : getProp e k = some v) : isNull e = false := by
  cases e <;> first | rfl | (exfalso; simp [getProp] at h)

theorem extractDetail_of_detail_skip (e : JsVal) (hnn : isNull e = false)
    (h : truthyOpt (getProp e "detail") = false) :
    extractDetail e = detailAfterDetail e := by
  unfold extractDetail
  rw [hnn]
  simp only [Bool.false_eq_true, if_false]
  cases hd : getProp e "detail" with
  | none => rfl
  | some d =>
    rw [hd] at h
    simp only [truthyOpt] at h
    simp [h]

theorem detailAfterDetail_of_error_skip (e : JsVal)
    (h : truthyOpt (getProp e "error") = false) :
    detailAfterDetail e = detailAfterError e := by
  unfold detailAfterDetail
  cases hd : getProp e "error" with
  | none => rfl
  | some v =>
    rw [hd] at h
    simp only [truthyOpt] at h
    simp [h]

theorem detailAfterError_of_nfe_skip (e : JsVal)
    (h : truthyOpt (optChainLength (getProp e "non_field_errors")) = false) :
    detailAfterError e = some (detailFromFields e) := by
  unfold detailAfterError
  simp [h]

/-- Counterexample for C4: the priority order is *not* followed for every
body.  On `\x7b"non_field_errors": "x"\x7d` no prioritized shape matches,
so the claim requires the raw-serialization fall-back, but the code calls
`.join` on the non-array and throws a `TypeError` (`none`) instead; and a
string body with text `"null"` re-parses to `null`, where the first
property access `error.detail` throws rather than serializing. -/
theorem error_detail_priority_counterexample :
    parseErrorResponse (fun _ => none) (some (.obj [("non_field_errors", .str "x")])) = none
    ∧ parseErrorResponse (fun _ => none) (some (.obj [("non_field_errors", .str "x")]))
        ≠ some (jsonStringify (.obj [("non_field_errors", .str "x")]))
    ∧ parseErrorResponse (fun _ => some JsVal.null) (some (.str "null")) = none := by
  refine ⟨rfl, ?_, rfl⟩
  intro h
  rw [show parseErrorResponse (fun _ => none)
        (some (.obj [("non_field_errors", .str "x")])) = none from rfl] at h
  cases h

/-- C4 (amended): the detail extraction of the error classifier follows the
claimed priority order with two throwing exceptions — a non-empty string
body is JSON-parsed when possible and returned as-is when not; a probed
value of `null` throws a `TypeError` at the first property access; else a
(truthy) `detail` string wins, else a (truthy) `error` string, else a
`non_field_errors` value with truthy length is joined with `", "` when it
is a list and throws a `TypeError` when it is not, else the remaining
field-keyed string/list entries are rendered as `field: value` pairs joined
with `"; "`; when none of these matches (the probed value not being `null`)
the result is the raw `JSON.stringify` serialization, and an absent/falsy
body yields `"Unknown error"`. -/
theorem error_detail_priority (parse : String → Option JsVal) :
    (∀ (s : String) (j : JsVal), s ≠ "" → parse s = some j →
       parseErrorResponse parse (some (.str s)) = extractDetail j)
    ∧ (∀ s : String, s ≠ "" → parse s = none →
        parseErrorResponse parse (some (.str s)) = some s)
    ∧ extractDetail JsVal.null = none
    ∧ (∀ (e : JsVal) (d : String), getProp e "detail" = some (.str d) → d ≠ "" →
        extractDetail e = some d)
    ∧ (∀ (e : JsVal) (s : String), truthyOpt (getProp e "detail") = false →
        getProp e "error" = some (.str s) → s ≠ "" →
        extractDetail e = some s)
    ∧ (∀ (e : JsVal) (xs : List JsVal), truthyOpt (getProp e "detail") = false →
        truthyOpt (getProp e "error") = false →
        getProp e "non_field_errors" = some (.arr xs) → xs ≠ [] →
        extractDetail e = some (joinCommaSpace xs))
    ∧ (∀ (e v : JsVal), truthyOpt (getProp e "detail") = false →
        truthyOpt (getProp e "error") = false →
        getProp e "non_field_errors" = some v →
        truthyOpt (optChainLength (some v)) = true →
        (∀ xs : List JsVal, v ≠ .arr xs) →
        extractDetail e = none)
    ∧ (∀ e : JsVal, truthyOpt (getProp e "detail") = false →
        truthyOpt (getProp e "error") = false →
        truthyOpt (optChainLength (getProp e "non_field_errors")) = false →
        fieldErrorEntries e ≠ [] →
        extractDetail e = some (joinSep "; " (fieldErrorEntries e)))
    ∧ (∀ e : JsVal, isNull e = false →
        truthyOpt (getProp e "detail") = false →
        truthyOpt (getProp e "error") = false →
        truthyOpt (optChainLength (getProp e "non_field_errors")) = false →
        fieldErrorEntries e = [] →
        extractDetail e = some (jsonStringify e))
    ∧ parseErrorResponse parse none = some "Unknown error"
    ∧ (∀ b : JsVal, truthy b = false →
        parseErrorResponse parse (some b) = some "Unknown error") := by
  refine ⟨?_, ?_, rfl, ?_, ?_, ?_, ?_, ?_, ?_, rfl, ?_⟩
  · intro s j hs hp
    have hie := isEmpty_false_of_ne s hs
    simp [parseErrorResponse, truthyOpt, truthy, hie, hp]
  · intro s hs hp
    have hie := isEmpty_false_of_ne s hs
    simp [parseErrorResponse, truthyOpt, truthy, hie, hp]
  · intro e d hd hne
    have hnn := isNull_false_of_getProp e "detail" _ hd
    have hie := isEmpty_false_of_ne d hne
    simp [extractDetail, hnn, hd, truthy, hie, jsToString]
  · intro e s h1 hd hne
    have hnn := isNull_false_of_getProp e "error" _ hd
    have hie := isEmpty_false_of_ne s hne
    rw [extractDetail_of_detail_skip e hnn h1]
    simp [detailAfterDetail, hd, truthy, hie, jsToString]
  · intro e xs h1 h2 hnfe hxs
    have hnn := isNull_false_of_getProp e "non_field_errors" _ hnfe
    rw [extractDetail_of_detail_skip e hnn h1, detailAfterDetail_of_error_skip e h2]
    have hlen : xs.length ≠ 0 := fun hc => hxs (List.length_eq_zero.mp hc)
    have hoc : optChainLength (getProp e "non_field_errors") = some (.num (xs.length : Int)) := by
      rw [hnfe]
      rfl
    have htr : truthyOpt (optChainLength (getProp e "non_field_errors")) = true := by
      rw [hoc]
      simpa [truthyOpt, truthy, bne_iff_ne, Int.natCast_eq_zero] using hlen
    unfold detailAfterError
    rw [htr, hnfe]
    simp
  · intro e v h1 h2 hnfe hlen hv
    have hnn := isNull_false_of_getProp e "non_field_errors" _ hnfe
    rw [extractDetail_of_detail_skip e hnn h1, detailAfterDetail_of_error_skip e h2]
    have htr : truthyOpt (optChainLength (getProp e "non_field_errors")) = true := by
      rw [hnfe]
      exact hlen
    unfold detailAfterError
    rw [htr, hnfe]
    simp only [if_true]
    cases v with
    | arr xs => exact absurd rfl (hv xs)
    | null => rfl
    | bool b => rfl
    | num n => rfl
    | str s => rfl
    | obj fs => rfl
  · intro e h1 h2 h3 hne
    have hnn : isNull e = false := by
      cases e with
      | null => exact absurd rfl hne
      | bool b => rfl
      | num n => rfl
      | str s => rfl
      | arr xs => rfl
      | obj fs => rfl
    rw [extractDetail_of_detail_skip e hnn h1, detailAfterDetail_of_error_skip e h2,
        detailAfterError_of_nfe_skip e h3]
    have hlen : 0 < (fieldErrorEntries e).length := List.length_pos.mpr hne
    simp [detailFromFields, hlen]
  · intro e hnn h1 h2 h3 hnil
    rw [extractDetail_of_detail_skip e hnn h1, detailAfterDetail_of_error_skip e h2,
        detailAfterError_of_nfe_skip e h3]
    simp [detailFromFields, hnil]
  · intro b hb
    simp [parseErrorResponse, truthyOpt, hb]

/-- Witness for C4 (amended): a string body holding a JSON object with a
`detail` field parses and the `detail` wins over a later `error` field. -/
theorem error_detail_priority_witness :
    parseErrorResponse
        (fun _ => some (.obj [("detail", .str "Invalid page."), ("error", .str "other")]))
        (some (.str "\x7b\"detail\":\"Invalid page.\"\x7d"))
      = some "Invalid page." := by
  have ha := (error_detail_priority
      (fun _ => some (.obj [("detail", .str "Invalid page."), ("error", .str "other")]))).1
    "\x7b\"detail\":\"Invalid page.\"\x7d"
    (.obj [("detail", .str "Invalid page."), ("error", .str "other")])
    (by decide) rfl
  have hc := (error_detail_priority
      (fun _ => some (.obj [("detail", .str "Invalid page."), ("error", .str "other")]))).2.2.2.1
    (.obj [("detail", .str "Invalid page."), ("error", .str "other")])
    "Invalid page." rfl (by decide)
  exact ha.trans hc

/-! ## C10 — non-emptiness of the extracted detail -/

theorem ne_empty_of_isEmpty_false (s : String) (h : s.isEmpty = false) : s ≠ "" := by
  intro he
  rw [he] at h
  exact absurd h (by decide)

theorem ne_empty_of_length_pos (s : String) (h : 0 < s.length) : s ≠ "" := by
  intro he
  rw [he] at h
  exact absurd h (by decide)

theorem natDecimal_ne_empty (n : Nat) : natDecimal n ≠ "" := by
  apply ne_empty_of_length_pos
  have hl : (natDecimal n).length = (natDigitsAux (n + 1) n).length := rfl
  rw [hl]
  unfold natDigitsAux
  split
  · simp
  · simp

theorem intDecimal_ne_empty (i : Int) : intDecimal i ≠ "" := by
  unfold intDecimal
  split
  · apply ne_empty_of_length_pos
    rw [String.length_append]
    have h := natDecimal_ne_empty (-i).toNat
    have : 0 < (natDecimal (-i).toNat).length := by
      cases hn : (natDecimal (-i).toNat).length with
      | zero =>
        exact absurd (by
          have hd : (natDecimal (-i).toNat).data.length = 0 := hn
          exact String.ext (List.length_eq_zero.mp hd)) h
      | succ k => omega
    omega
  · exact natDecimal_ne_empty i.toNat

/-- Every return shape of `jsonStringify` begins with at least one
character. -/
theorem jsonStringify_ne_empty (v : JsVal) : jsonStringify v ≠ "" := by
  cases v with
  | null => decide
  | bool b => cases b <;> decide
  | num n =>
    have he : jsonStringify (.num n) = intDecimal n := by simp [jsonStringify]
    rw [he]
    exact intDecimal_ne_empty n
  | str s =>
    have he : jsonStringify (.str s) = jsonQuote s := by simp [jsonStringify]
    rw [he]
    apply ne_empty_of_length_pos
    unfold jsonQuote
    rw [String.length_append, String.length_append]
    have h1 : ("\"").length = 1 := rfl
    omega
  | arr xs =>
    have he : jsonStringify (.arr xs) = "[" ++ jsonStringifyArr xs ++ "]" := by
      simp [jsonStringify]
    rw [he]
    apply ne_empty_of_length_pos
    rw [String.length_append, String.length_append]
    have h1 : ("[").length = 1 := rfl
    omega
  | obj fields =>
    have he : jsonStringify (.obj fields)
        = "\x7b" ++ jsonStringifyFields fields ++ "\x7d" := by
      simp [jsonStringify]
    rw [he]
    apply ne_empty_of_length_pos
    rw [String.length_append, String.length_append]
    have h1 : ("\x7b").length = 1 := rfl
    omega

/-- Joining a non-empty list is at least as long as its head. -/
theorem joinSep_cons_length (sep a : String) (l : List String) :
    a.length ≤ (joinSep sep (a :: l)).length := by
  cases l with
  | nil => exact Nat.le_refl _
  | cons x xs =>
    have he : joinSep sep (a :: x :: xs) = a ++ sep ++ joinSep sep (x :: xs) := rfl
    rw [he, String.length_append, String.length_append]
    omega

/-- Every rendered field error `key: value` has positive length. -/
theorem fieldErrorEntries_length_pos (e : JsVal) (a : String)
    (ha : a ∈ fieldErrorEntries e) : 0 < a.length := by
  obtain ⟨⟨k, v⟩, hmem, hf⟩ := List.mem_filterMap.mp ha
  by_cases hk : (k = "detail" ∨ k = "error" ∨ k = "non_field_errors")
  · simp [fieldErrorEntries, hk] at hf
  · rw [if_neg hk] at hf
    have hsep : (": ").length = 2 := rfl
    cases v with
    | arr xs =>
      simp only [Option.some.injEq] at hf
      rw [← hf, String.length_append, String.length_append, hsep]
      omega
    | str s =>
      simp only [Option.some.injEq] at hf
      rw [← hf, String.length_append, String.length_append, hsep]
      omega
    | null => cases hf
    | bool b => cases hf
    | num n => cases hf
    | obj fs => cases hf

/-- The field-error/stringify fallback of the chain is never empty. -/
theorem detailFromFields_nonempty (e : JsVal) : detailFromFields e ≠ "" := by
  unfold detailFromFields
  cases hfe : fieldErrorEntries e with
  | nil =>
    simp only [hfe, List.length_nil, gt_iff_lt, Nat.lt_irrefl, if_false]
    exact jsonStringify_ne_empty e
  | cons a l =>
    simp only [List.length_cons, gt_iff_lt, Nat.succ_pos, if_true]
    apply ne_empty_of_length_pos
    have hpos : 0 < a.length :=
      fieldErrorEntries_length_pos e a (by rw [hfe]; exact List.mem_cons_self a l)
    exact Nat.lt_of_lt_of_le hpos (joinSep_cons_length "; " a l)

/-- The `non_field_errors` step yields a non-empty string on good shapes. -/
theorem detailAfterError_nonempty (e : JsVal) (m : String)
    (h3 : goodNfeShape e = true) (hres : detailAfterError e = some m) : m ≠ "" := by
  unfold detailAfterError at hres
  cases hcb : truthyOpt (optChainLength (getProp e "non_field_errors")) with
  | false =>
    rw [hcb] at hres
    simp only [Bool.false_eq_true, if_false, Option.some.injEq] at hres
    rw [← hres]
    exact detailFromFields_nonempty e
  | true =>
    rw [hcb] at hres
    simp only [if_true] at hres
    unfold goodNfeShape at h3
    cases hn : getProp e "non_field_errors" with
    | none => rw [hn] at hres; cases hres
    | some w =>
      rw [hn] at hres h3
      cases w with
      | arr xs =>
        have hres' : some (joinCommaSpace xs) = some m := hres
        have h3' : (xs.isEmpty || !(joinCommaSpace xs).isEmpty) = true := h3
        simp only [Option.some.injEq] at hres'
        rw [hn] at hcb
        have hoc : optChainLength (some (JsVal.arr xs)) = some (.num (xs.length : Int)) := rfl
        rw [hoc] at hcb
        simp only [truthyOpt, truthy, bne_iff_ne, ne_eq, decide_eq_true_eq,
          Int.natCast_eq_zero] at hcb
        have hie : xs.isEmpty = false := by
          cases hxe : xs.isEmpty
          · rfl
          · exact absurd (by rw [List.isEmpty_iff] at hxe; rw [hxe]; rfl) hcb
        rw [hie] at h3'
        simp only [Bool.false_or, Bool.not_eq_true'] at h3'
        rw [← hres']
        exact ne_empty_of_isEmpty_false _ h3'
      | null => cases hres
      | bool b => cases hres
      | num n => cases hres
      | str s => cases hres
      | obj fs => cases hres

/-- The `error` step yields a non-empty string on good shapes. -/
theorem detailAfterDetail_nonempty (e : JsVal) (m : String)
    (h2 : goodErrorShape e = true) (h3 : goodNfeShape e = true)
    (hres : detailAfterDetail e = some m) : m ≠ "" := by
  unfold detailAfterDetail at hres
  unfold goodErrorShape at h2
  cases he : getProp e "error" with
  | some v =>
    rw [he] at hres h2
    have hres' : (if truthy v = true then some (jsToString v) else detailAfterError e)
        = some m := hres
    have h2' : (!truthy v || !(jsToString v).isEmpty) = true := h2
    cases htv : truthy v with
    | true =>
      rw [htv] at hres' h2'
      simp only [if_true, Option.some.injEq] at hres'
      simp only [Bool.not_true, Bool.false_or, Bool.not_eq_true'] at h2'
      rw [← hres']
      exact ne_empty_of_isEmpty_false _ h2'
    | false =>
      rw [htv] at hres'
      simp only [Bool.false_eq_true, if_false] at hres'
      exact detailAfterError_nonempty e m h3 hres'
  | none =>
    rw [he] at hres
    exact detailAfterError_nonempty e m h3 hres

/-- On a value free of the corner shapes, the shape-probing chain yields a
non-empty string. -/
theorem extractDetail_nonempty_of_good (e : JsVal) (m : String)
    (hgood : goodShapes e = true) (hres : extractDetail e = some m) : m ≠ "" := by
  have h123 := Bool.and_eq_true_iff.mp hgood
  have h1 := (Bool.and_eq_true_iff.mp h123.1).1
  have h2 := (Bool.and_eq_true_iff.mp h123.1).2
  have h3 := h123.2
  unfold extractDetail at hres
  cases hnn : isNull e with
  | true => rw [hnn] at hres; simp at hres
  | false =>
  rw [hnn] at hres
  simp only [Bool.false_eq_true, if_false] at hres
  unfold goodDetailShape at h1
  cases hd : getProp e "detail" with
  | some d =>
    rw [hd] at hres h1
    have hres' : (if truthy d = true then some (jsToString d) else detailAfterDetail e)
        = some m := hres
    have h1' : (!truthy d || !(jsToString d).isEmpty) = true := h1
    cases htd : truthy d with
    | true =>
      rw [htd] at hres' h1'
      simp only [if_true, Option.some.injEq] at hres'
      simp only [Bool.not_true, Bool.false_or, Bool.not_eq_true'] at h1'
      rw [← hres']
      exact ne_empty_of_isEmpty_false _ h1'
    | false =>
      rw [htd] at hres'
      simp only [Bool.false_eq_true, if_false] at hres'
      exact detailAfterDetail_nonempty e m h2 h3 hres'
  | none =>
    rw [hd] at hres
    exact detailAfterDetail_nonempty e m h2 h3 hres

/-- Counterexample for C10: on the body
`\x7b"non_field_errors": [""]\x7d` the extraction returns the *empty*
string (the singleton list joins to `""`), so the extracted detail is not
always non-empty. -/
theorem parse_error_empty_detail_counterexample :
    parseErrorResponse (fun _ => none)
        (some (.obj [("non_field_errors", .arr [.str ""])])) = some "" := by
  rfl

/-- C10 (amended): whenever the detail extraction returns a string at all
(it throws a `TypeError` on a `null` probed value or a non-list
`non_field_errors` with truthy length, returning nothing), the returned
string is non-empty provided the probed value is free of the
empty-rendering corner shapes: a truthy `detail`/`error` entry that renders
empty (an array of empties), or a non-empty `non_field_errors` list joining
to `""` (a singleton empty entry, as in the counterexample). -/
theorem parse_error_detail_nonempty (parse : String → Option JsVal)
    (b : Option JsVal) (m : String)
    (hres : parseErrorResponse parse b = some m)
    (hgood : ∀ e, effectiveBody parse b = some e → goodShapes e = true) : m ≠ "" := by
  cases b with
  | none =>
    simp only [parseErrorResponse, truthyOpt, Bool.not_false, if_true,
      Option.some.injEq] at hres
    rw [← hres]
    decide
  | some v =>
    cases htr : truthy v with
    | false =>
      unfold parseErrorResponse at hres
      rw [show truthyOpt (some v) = false from htr] at hres
      simp only [Bool.not_false, if_true, Option.some.injEq] at hres
      rw [← hres]
      decide
    | true =>
      unfold parseErrorResponse at hres
      rw [show truthyOpt (some v) = true from htr] at hres
      simp only [Bool.not_true, Bool.false_eq_true, if_false] at hres
      cases v with
      | str s =>
        have hres' : (match parse s with
            | some parsed => extractDetail parsed
            | none => some s) = some m := hres
        cases hp : parse s with
        | none =>
          rw [hp] at hres'
          simp only [Option.some.injEq] at hres'
          rw [← hres']
          exact ne_empty_of_isEmpty_false s (by simpa [truthy] using htr)
        | some j =>
          rw [hp] at hres'
          refine extractDetail_nonempty_of_good j m ?_ hres'
          apply hgood
          show (if (!truthy (JsVal.str s)) = true then none else parse s) = some j
          rw [htr, hp]
          rfl
      | null => cases htr
      | bool bb =>
        refine extractDetail_nonempty_of_good _ m ?_ hres
        apply hgood
        show (if (!truthy (JsVal.bool bb)) = true then none else some (JsVal.bool bb))
          = some (JsVal.bool bb)
        rw [htr]
        rfl
      | num n =>
        refine extractDetail_nonempty_of_good _ m ?_ hres
        apply hgood
        show (if (!truthy (JsVal.num n)) = true then none else some (JsVal.num n))
          = some (JsVal.num n)
        rw [htr]
        rfl
      | arr xs =>
        refine extractDetail_nonempty_of_good _ m ?_ hres
        apply hgood
        show (if (!truthy (JsVal.arr xs)) = true then none else some (JsVal.arr xs))
          = some (JsVal.arr xs)
        rw [htr]
        rfl
      | obj fs =>
        refine extractDetail_nonempty_of_good _ m ?_ hres
        apply hgood
        show (if (!truthy (JsVal.obj fs)) = true then none else some (JsVal.obj fs))
          = some (JsVal.obj fs)
        rw [htr]
        rfl

/-- Witness for C10 (amended): a body with a plain `detail` string yields
that (non-empty) string. -/
theorem parse_error_detail_nonempty_witness :
    parseErrorResponse (fun _ => none) (some (.obj [("detail", .str "Boom")])) = some "Boom"
    ∧ "Boom" ≠ "" := by
  refine ⟨rfl, ?_⟩
  refine parse_error_detail_nonempty (fun _ => none)
    (some (.obj [("detail", .str "Boom")])) "Boom" rfl ?_
  intro e he
  cases he
  decide

end Paperless
